import Mathlib

set_option maxRecDepth 2048

/-!
# Verification of the bytecodec struct/byte-stream codec

This file shallowly embeds the core of the `bytecodec` Go library (the
codec dispatch engine, the struct field resolver with its `lengthref`
protocol, the container (array/slice) codecs, the pointer codec with its
cycle guard, and the `Marshal`/`Unmarshal` entry points) and proves or
refutes the frozen specification claims about it.

Modelling conventions:

* Go byte buffers are `List Nat` (each entry a byte value); `bytes.Buffer`
  is consumed from the front on reads and appended at the back on writes,
  and `Buffer.Bytes()` returns the unread remainder without consuming it.
* Machine integers are `Int`/`Nat` with explicit wrapping (`% 2^w`,
  `Int.emod`) exactly where the Go source performs a narrowing conversion.
* `float32`/`float64` values are carried as their IEEE-754 bit patterns
  (a `Nat` below `2^32` / `2^64`): the Go coders only move bit patterns
  (`math.Float32bits`/`Float32frombits` are bit casts), and the NaN/Inf
  guard in the float encoders is exactly the test that the exponent field
  is all ones.
* Go pointers are addresses into an explicit heap (`GoHeap`); `nil` is
  `Option.none`.  The cycle guard (`ptrLevel`/`ptrSeen`) is threaded
  explicitly as a `PTrack` value shared by a whole call tree, as the
  source shares one `pointerTrack` through `gensub`.
* Panic-style error signalling (`CodecState.error` / `recover`) is the
  `Except` monad: any error aborts the whole call tree.
* Per-field tag configuration is taken as already parsed (`TagOpts`),
  mirroring the `tagOptions` struct the coder file consumes; the coder
  treats `length = 0` as "no length tag" (every check is `to.length != 0`,
  and the root call passes a zero `tagOptions{}`).  Tag-string lexing
  itself is out of scope.
* The external GBK/GB18030 and BCD8421 transcoders are black boxes at the
  system boundary; their branches are represented by a distinguished
  `externalCodec` error constructor and are exercised by no claim.
* The source recursion can genuinely diverge (cyclic pointers, container
  element codecs that consume zero bytes), so every recursive codec
  function takes explicit fuel and returns a distinguished `outOfFuel`
  error when it runs out; all concrete evaluations use ample fuel and
  general theorems quantify over sufficient fuel.
-/

/-- Parsed per-field tag configuration, mirroring the `tagOptions` record
consumed by the coder file (`length`, `lengthref`, `gbk`, `gbk18030`,
`bcd`); `length = 0` means the tag is absent. -/
structure TagOpts where
  length : Int := 0
  lengthref : String := ""
  gbk : Bool := false
  gbk18030 : Bool := false
  bcd : Int := 0
deriving Repr, DecidableEq

/-- A Go value, as seen by the reflection-driven codec.  Fixed-width
numerics carry their mathematical value (`Int` for signed, `Nat` for
unsigned, bit patterns for floats); strings carry their byte content;
structs carry the per-field name, parsed tag configuration and value
(exactly the data `typeFields` caches per field); slices and pointers
additionally carry a zero value of their element type (standing for
`reflect.Type.Elem()`, needed by decode for growth and allocation);
pointers hold an optional heap address; interface slots hold an optional
concrete value. -/
inductive GoVal where
  | vBool (b : Bool)
  | vInt8 (i : Int)
  | vInt16 (i : Int)
  | vInt32 (i : Int)
  | vInt64 (i : Int)
  | vUint8 (u : Nat)
  | vUint16 (u : Nat)
  | vUint32 (u : Nat)
  | vUint64 (u : Nat)
  | vFloat32 (bits : Nat)
  | vFloat64 (bits : Nat)
  | vString (bytes : List Nat)
  | vStruct (fields : List (String × TagOpts × GoVal))
  | vArray (elems : List GoVal)
  | vSlice (zeroElem : GoVal) (elems : List GoVal)
  | vPtr (zeroElem : GoVal) (addr : Option Nat)
  | vIface (content : Option GoVal)
deriving Repr

open GoVal

/-- A struct field as cached by `typeFields`: name, parsed tags, value. -/
abbrev SField := String × TagOpts × GoVal

/-- Field name accessor. -/
def sfName (f : SField) : String := f.1

/-- Field tag-options accessor. -/
def sfTags (f : SField) : TagOpts := f.2.1

/-- Field value accessor. -/
def sfVal (f : SField) : GoVal := f.2.2

/-- The heap backing Go pointers: a partial map from addresses to values
plus the next fresh address (`reflect.New` allocates at `next`). -/
structure GoHeap where
  mem : Nat → Option GoVal
  next : Nat

/-- The empty heap. -/
def hEmpty : GoHeap := ⟨fun _ => none, 0⟩

/-- Heap from a list of cells: address `n` holds the `n`-th entry. -/
def hOfList (l : List GoVal) : GoHeap := ⟨fun n => l.get? n, l.length⟩

/-- Store a value at an address (used by pointer decode). -/
def hSet (h : GoHeap) (a : Nat) (v : GoVal) : GoHeap :=
  ⟨fun n => if n = a then some v else h.mem n, h.next⟩

/-- Allocate a fresh cell holding `v`; returns the new heap (the fresh
address is the old `next`).  Models `reflect.New`. -/
def hAlloc (h : GoHeap) (v : GoVal) : GoHeap :=
  ⟨fun n => if n = h.next then some v else h.mem n, h.next + 1⟩

/-- The `pointerTrack` record shared through one Marshal/Unmarshal call
tree: current pointer nesting depth and the set (list) of pointer
identities on the active path, populated only past the detection
threshold. -/
structure PTrack where
  level : Nat := 0
  seen : List Nat := []
deriving Repr, DecidableEq

/-- A fresh pointer track, as built by `newCodecState`. -/
def pt0 : PTrack := {}

/-- The threshold `startDetectingCyclesAfter` from the source. -/
def startDetectingCyclesAfter : Nat := 1000

/-- The error taxonomy of the codec, one constructor per error shape the
source can raise (plus `outOfFuel` for the fuel embedding and `badHeap`
for dereferencing an address the model heap does not contain, which has
no Go counterpart and is unreachable in every claim). -/
inductive CErr where
  | dataLength
  | unsupportedType
  | unsupportedValue (msg : String)
  | tagRefNotFound
  | tagRefType
  | lengthMismatch
  | externalCodec
  | runtimePanic
  | invalidUnmarshal
  | badHeap
  | outOfFuel
deriving Repr, DecidableEq

/-- Truncating byte cast, Go `byte(x)` on an unsigned value. -/
def byteOf (u : Nat) : Nat := u % 256

/-- Wrap an integer into the signed `w`-bit range (Go's truncating
conversion to `intW`). -/
def wrapS (w : Nat) (i : Int) : Int :=
  (i + 2 ^ (w - 1)) % (2 ^ w) - 2 ^ (w - 1)

/-- Reinterpret a `w`-bit unsigned value as signed (Go `intW(uintW)`). -/
def sInt (w : Nat) (u : Nat) : Int :=
  if u < 2 ^ (w - 1) then (u : Int) else (u : Int) - 2 ^ w

/-- `binary.BigEndian.PutUint16`: two big-endian bytes. -/
def be2 (u : Nat) : List Nat := [u / 256 % 256, u % 256]

/-- `binary.BigEndian.PutUint32`: four big-endian bytes. -/
def be4 (u : Nat) : List Nat :=
  [u / 2 ^ 24 % 256, u / 2 ^ 16 % 256, u / 2 ^ 8 % 256, u % 256]

/-- `binary.BigEndian.PutUint64`: eight big-endian bytes. -/
def be8 (u : Nat) : List Nat :=
  [u / 2 ^ 56 % 256, u / 2 ^ 48 % 256, u / 2 ^ 40 % 256, u / 2 ^ 32 % 256,
   u / 2 ^ 24 % 256, u / 2 ^ 16 % 256, u / 2 ^ 8 % 256, u % 256]

/-- `binary.BigEndian.Uint16` on a 2-byte buffer. -/
def rd2 (l : List Nat) : Nat := l.getD 0 0 * 256 + l.getD 1 0

/-- `binary.BigEndian.Uint32` on a 4-byte buffer. -/
def rd4 (l : List Nat) : Nat :=
  l.getD 0 0 * 2 ^ 24 + l.getD 1 0 * 2 ^ 16 + l.getD 2 0 * 2 ^ 8 + l.getD 3 0

/-- `binary.BigEndian.Uint64` on an 8-byte buffer. -/
def rd8 (l : List Nat) : Nat :=
  l.getD 0 0 * 2 ^ 56 + l.getD 1 0 * 2 ^ 48 + l.getD 2 0 * 2 ^ 40 +
  l.getD 3 0 * 2 ^ 32 + l.getD 4 0 * 2 ^ 24 + l.getD 5 0 * 2 ^ 16 +
  l.getD 6 0 * 2 ^ 8 + l.getD 7 0

/-- `CodecState.Read` into a fresh `make([]byte, n)`: `bytes.Buffer.Read`
fails (with `DataLengthErr` via `c.error`) only when the buffer is empty
and `n > 0`; otherwise it fills the first `min n len` slots and leaves
the rest of the destination zero (the destination was zero-initialised),
and the source ignores the returned count.  Returns the destination
contents and the remaining buffer. -/
def readFull (n : Nat) (buf : List Nat) : Except CErr (List Nat × List Nat) :=
  if buf.isEmpty ∧ 0 < n then .error .dataLength
  else .ok (buf.take n ++ List.replicate (n - buf.length) 0, buf.drop n)

/-- `CodecState.ReadByte`: fails with `DataLengthErr` on an empty buffer. -/
def readByte (buf : List Nat) : Except CErr (Nat × List Nat) :=
  match buf with
  | [] => .error .dataLength
  | b :: rest => .ok (b, rest)

/-- Exponent field of a float32 bit pattern. -/
def f32exp (bits : Nat) : Nat := bits / 2 ^ 23 % 256

/-- Exponent field of a float64 bit pattern. -/
def f64exp (bits : Nat) : Nat := bits / 2 ^ 52 % 2048

/-- `math.IsNaN(f) || math.IsInf(f, 0)` for a float32 carried by bits:
exactly "exponent field all ones". -/
def f32NaNorInf (bits : Nat) : Bool := f32exp bits = 255

/-- `math.IsNaN(f) || math.IsInf(f, 0)` for a float64 carried by bits. -/
def f64NaNorInf (bits : Nat) : Bool := f64exp bits = 2047

/-- Round-to-nearest-even conversion of a natural number to an IEEE-754
bit pattern with `mbits` mantissa bits, exponent bias `bias` and maximal
exponent field `emax` (Go's `float32(n)` / `float64(n)` conversions used
when a `lengthref` holder field has float kind). -/
def natToFloatBits (mbits bias emax : Nat) (n : Nat) : Nat :=
  if n = 0 then 0
  else
    let e := Nat.log2 n
    if e ≤ mbits then
      (bias + e) * 2 ^ mbits + (n * 2 ^ (mbits - e) - 2 ^ mbits)
    else
      let shift := e - mbits
      let q := n / 2 ^ shift
      let r := n % 2 ^ shift
      let half := 2 ^ (shift - 1)
      let q2 := if half < r ∨ (r = half ∧ q % 2 = 1) then q + 1 else q
      let e2 := if q2 = 2 ^ (mbits + 1) then e + 1 else e
      let m2 := if q2 = 2 ^ (mbits + 1) then 2 ^ mbits else q2
      if emax ≤ bias + e2 then emax * 2 ^ mbits
      else (bias + e2) * 2 ^ mbits + (m2 - 2 ^ mbits)

/-- Go `float32(n)` for a natural `n`, as a bit pattern. -/
def natToF32bits (n : Nat) : Nat := natToFloatBits 23 127 255 n

/-- Go `float64(n)` for a natural `n`, as a bit pattern. -/
def natToF64bits (n : Nat) : Nat := natToFloatBits 52 1023 2047 n

/-- Go `int(f)` for a float32 bit pattern: truncation toward zero.
NaN/Inf inputs are unreachable in every claim and mapped to 0. -/
def f32toInt (bits : Nat) : Int :=
  let e := f32exp bits
  let m := bits % 2 ^ 23
  if e = 255 then 0
  else
    let mag : Nat :=
      if e < 127 then 0
      else if e ≤ 150 then (2 ^ 23 + m) / 2 ^ (150 - e)
      else (2 ^ 23 + m) * 2 ^ (e - 150)
    if 2 ^ 31 ≤ bits % 2 ^ 32 then -(mag : Int) else (mag : Int)

/-- Go `int(f)` for a float64 bit pattern. -/
def f64toInt (bits : Nat) : Int :=
  let e := f64exp bits
  let m := bits % 2 ^ 52
  if e = 2047 then 0
  else
    let mag : Nat :=
      if e < 1023 then 0
      else if e ≤ 1075 then (2 ^ 52 + m) / 2 ^ (1075 - e)
      else (2 ^ 52 + m) * 2 ^ (e - 1075)
    if 2 ^ 63 ≤ bits % 2 ^ 64 then -(mag : Int) else (mag : Int)

/-- The `encodeLengthref` kind switch: convert the encoded byte length of
the referenced field into the length-holder field's own numeric type
(`lengthref.codec.typ()` dispatch), with Go's truncating conversions;
non-numeric holder kinds fall to the `default` arm (a tag error). -/
def lenValLike (fv : GoVal) (len : Nat) : Option GoVal :=
  match fv with
  | vInt8 _ => some (vInt8 (wrapS 8 len))
  | vInt16 _ => some (vInt16 (wrapS 16 len))
  | vInt32 _ => some (vInt32 (wrapS 32 len))
  | vInt64 _ => some (vInt64 (wrapS 64 len))
  | vUint8 _ => some (vUint8 (len % 2 ^ 8))
  | vUint16 _ => some (vUint16 (len % 2 ^ 16))
  | vUint32 _ => some (vUint32 (len % 2 ^ 32))
  | vUint64 _ => some (vUint64 (len % 2 ^ 64))
  | vFloat32 _ => some (vFloat32 (natToF32bits len))
  | vFloat64 _ => some (vFloat64 (natToF64bits len))
  | _ => none

/-- The decode pass-1 kind switch of `structCoder.decode`: read the
current value of a length-holder field as a Go `int` (`fv.Int()`,
`int(fv.Uint())`, `int(fv.Float())`); non-numeric kinds fall to the
`default` arm (a tag error). -/
def lengthOfKind (fv : GoVal) : Option Int :=
  match fv with
  | vInt8 i => some i
  | vInt16 i => some i
  | vInt32 i => some i
  | vInt64 i => some i
  | vUint8 u => some (wrapS 64 (u : Int))
  | vUint16 u => some (wrapS 64 (u : Int))
  | vUint32 u => some (wrapS 64 (u : Int))
  | vUint64 u => some (wrapS 64 (u : Int))
  | vFloat32 bits => some (f32toInt bits)
  | vFloat64 bits => some (f64toInt bits)
  | _ => none

/-- `structCoder.findref`: scan all fields and keep the last one whose
`lengthref` TAG equals `f`'s `lengthref` tag (this is what the source
compares — the sibling's tag, not the sibling's name), together with its
index; `none` models `found == false`. -/
def findref (fs : List SField) (f : SField) : Option (SField × Nat) :=
  fs.enum.foldl
    (fun acc p =>
      if (sfTags p.2).lengthref == (sfTags f).lengthref then some (p.2, p.1) else acc)
    none

/-- `structCoder.existLengthref`: some sibling's `lengthref` tag names
this field. -/
def existLengthref (fs : List SField) (f : SField) : Bool :=
  fs.any (fun i => (sfTags i).lengthref == sfName f)

mutual

/-- `reflect.Zero` of the type of a given value. -/
def zeroLike : GoVal → GoVal
  | vBool _ => vBool false
  | vInt8 _ => vInt8 0
  | vInt16 _ => vInt16 0
  | vInt32 _ => vInt32 0
  | vInt64 _ => vInt64 0
  | vUint8 _ => vUint8 0
  | vUint16 _ => vUint16 0
  | vUint32 _ => vUint32 0
  | vUint64 _ => vUint64 0
  | vFloat32 _ => vFloat32 0
  | vFloat64 _ => vFloat64 0
  | vString _ => vString []
  | vStruct fs => vStruct (zeroLikeFields fs)
  | vArray es => vArray (zeroLikeList es)
  | vSlice z _ => vSlice z []
  | vPtr z _ => vPtr z none
  | vIface _ => vIface none

/-- `reflect.Zero` pointwise on struct fields. -/
def zeroLikeFields : List SField → List SField
  | [] => []
  | (n, t, v) :: rest => (n, t, zeroLike v) :: zeroLikeFields rest

/-- `reflect.Zero` pointwise on a list of element values. -/
def zeroLikeList : List GoVal → List GoVal
  | [] => []
  | v :: rest => zeroLike v :: zeroLikeList rest

end

/-- Zero-fill a decoded array from index `i` on (the tail of
`arrayCoder.decode`, filling remaining target slots with
`reflect.Zero(v.Type().Elem())`). -/
def zeroFillFrom (i : Nat) (es : List GoVal) : List GoVal :=
  es.enum.map (fun p => if p.1 < i then p.2 else zeroLike p.2)

mutual

/-- The `codec.encode` dispatch of the coder file, one arm per coder
(`boolCoder` … `ptrCoder`), over explicit fuel, heap, pointer track,
value and tag options; returns the bytes this codec appends and the
pointer track afterwards. -/
def encodeV (fuel : Nat) (h : GoHeap) (pt : PTrack) (v : GoVal) (tg : TagOpts) :
    Except CErr (List Nat × PTrack) :=
  match fuel with
  | 0 => .error .outOfFuel
  | fuel' + 1 =>
    match v with
    | vBool b => .ok (if b then [1] else [0], pt)
    | vInt8 i => .ok ([(i % 256).toNat], pt)
    | vInt16 i => .ok (be2 (i % (2 ^ 16)).toNat, pt)
    | vInt32 i => .ok (be4 (i % (2 ^ 32)).toNat, pt)
    | vInt64 i => .ok (be8 (i % (2 ^ 64)).toNat, pt)
    | vUint8 u => .ok ([byteOf u], pt)
    | vUint16 u => .ok (be2 (u % 2 ^ 16), pt)
    | vUint32 u => .ok (be4 (u % 2 ^ 32), pt)
    | vUint64 u => .ok (be8 (u % 2 ^ 64), pt)
    | vFloat32 bits =>
      if f32NaNorInf bits then .error (.unsupportedValue "float NaN or Inf")
      else .ok (be4 (bits % 2 ^ 32), pt)
    | vFloat64 bits =>
      if f64NaNorInf bits then .error (.unsupportedValue "float NaN or Inf")
      else .ok (be8 (bits % 2 ^ 64), pt)
    | vString s =>
      if tg.bcd ≠ 0 then .error .externalCodec
      else if tg.gbk ∨ tg.gbk18030 then .error .externalCodec
      else if tg.length ≠ 0 ∧ (s.length : Int) ≠ tg.length then .error .lengthMismatch
      else .ok (s, pt)
    | vStruct fs =>
      match encFields fuel' h pt fs fs.enum (List.replicate fs.length []) with
      | .error e => .error e
      | .ok (buf, pt2) => .ok (buf.flatten, pt2)
    | vArray es =>
      match encList fuel' h pt es tg with
      | .error e => .error e
      | .ok (bs, pt2) =>
        if tg.length ≠ 0 ∧ (bs.length : Int) ≠ tg.length then .error .lengthMismatch
        else .ok (bs, pt2)
    | vSlice _ es =>
      match encList fuel' h pt es tg with
      | .error e => .error e
      | .ok (bs, pt2) =>
        if tg.length ≠ 0 ∧ (bs.length : Int) ≠ tg.length then .error .lengthMismatch
        else .ok (bs, pt2)
    | vPtr _ addr =>
      match addr with
      | none => .ok ([], pt)
      | some a =>
        if startDetectingCyclesAfter < pt.level + 1 then
          if pt.seen.contains a then .error (.unsupportedValue "cycle")
          else
            match h.mem a with
            | none => .error .badHeap
            | some ev =>
              match encodeV fuel' h ⟨pt.level + 1, a :: pt.seen⟩ ev tg with
              | .error e => .error e
              | .ok (bs, pt2) => .ok (bs, ⟨pt2.level - 1, pt2.seen.erase a⟩)
        else
          match h.mem a with
          | none => .error .badHeap
          | some ev =>
            match encodeV fuel' h ⟨pt.level + 1, pt.seen⟩ ev tg with
            | .error e => .error e
            | .ok (bs, pt2) => .ok (bs, ⟨pt2.level - 1, pt2.seen⟩)
    | vIface c =>
      match c with
      | none => .ok ([], pt)
      | some e => encodeV fuel' h pt e tg

/-- `arrayCoder.encode` / `sliceCoder.encode` element loop: encode each
element in index order with the container's own tag options. -/
def encList (fuel : Nat) (h : GoHeap) (pt : PTrack) (vs : List GoVal) (tg : TagOpts) :
    Except CErr (List Nat × PTrack) :=
  match fuel with
  | 0 => .error .outOfFuel
  | fuel' + 1 =>
    match vs with
    | [] => .ok ([], pt)
    | v :: rest =>
      match encodeV fuel' h pt v tg with
      | .error e => .error e
      | .ok (bs, pt2) =>
        match encList fuel' h pt2 rest tg with
        | .error e => .error e
        | .ok (bs2, pt3) => .ok (bs ++ bs2, pt3)

/-- The field loop of `structCoder.encode`: `all` is the cached field
list, `rem` the remaining `(index, field)` pairs, `buf` the per-field
byte segments; length-holder fields go through `encLengthref`, fields
referenced by a sibling are skipped, ordinary fields encode into their
own segment. -/
def encFields (fuel : Nat) (h : GoHeap) (pt : PTrack) (all : List SField)
    (rem : List (Nat × SField)) (buf : List (List Nat)) :
    Except CErr (List (List Nat) × PTrack) :=
  match fuel with
  | 0 => .error .outOfFuel
  | fuel' + 1 =>
    match rem with
    | [] => .ok (buf, pt)
    | (i, f) :: rest =>
      if (sfTags f).lengthref ≠ "" then
        match findref all f with
        | none => .error .tagRefNotFound
        | some (ref, ri) =>
          match encLengthref fuel' h pt f ref i ri buf with
          | .error e => .error e
          | .ok (buf2, pt2) => encFields fuel' h pt2 all rest buf2
      else if existLengthref all f then
        encFields fuel' h pt all rest buf
      else
        match encodeV fuel' h pt (sfVal f) (sfTags f) with
        | .error e => .error e
        | .ok (bs, pt2) => encFields fuel' h pt2 all rest (buf.set i bs)

/-- `structCoder.encodeLengthref`: encode the referenced field into an
isolated segment, convert its byte length into the holder's numeric
type, encode that, and splice both segments into `buf` at their declared
positions (holder first, referenced second — so on equal indices the
referenced field's bytes win). -/
def encLengthref (fuel : Nat) (h : GoHeap) (pt : PTrack) (f ref : SField)
    (i ri : Nat) (buf : List (List Nat)) :
    Except CErr (List (List Nat) × PTrack) :=
  match fuel with
  | 0 => .error .outOfFuel
  | fuel' + 1 =>
    match encodeV fuel' h pt (sfVal ref) (sfTags ref) with
    | .error e => .error e
    | .ok (refbytes, pt2) =>
      match lenValLike (sfVal f) refbytes.length with
      | none => .error .tagRefType
      | some lengthv =>
        match encodeV fuel' h pt2 lengthv (sfTags f) with
        | .error e => .error e
        | .ok (lbytes, pt3) => .ok ((buf.set i lbytes).set ri refbytes, pt3)

end

/-- One index step of decode pass 1 of `structCoder.decode`: if field `i`
declares a `lengthref`, resolve the referenced index via `findref`, read
the field's CURRENT value as an `int` (pass 1 runs entirely before any
field is decoded, so this is the value the target held on entry), and
overwrite the cached `length` tag of the field at the resolved index. -/
def pass1step (cur : List SField) (i : Nat) : Except CErr (List SField) :=
  match cur.get? i with
  | none => .ok cur
  | some f =>
    if (sfTags f).lengthref ≠ "" then
      match findref cur f with
      | none => .error .tagRefNotFound
      | some (_, ri) =>
        match lengthOfKind (sfVal f) with
        | none => .error .tagRefType
        | some len =>
          match cur.get? ri with
          | none => .ok cur
          | some (rn, rt, rv) => .ok (cur.set ri (rn, { rt with length := len }, rv))
    else .ok cur

/-- Decode pass 1 of `structCoder.decode`, over all field indices in
declaration order. -/
def pass1 (fs : List SField) : Except CErr (List SField) :=
  (List.range fs.length).foldlM pass1step fs

mutual

/-- The `codec.decode` dispatch of the coder file, one arm per coder,
dispatching on the target value (whose shape is its Go type); returns
the updated target value, the remaining buffer, and the updated heap and
pointer track. -/
def decodeV (fuel : Nat) (h : GoHeap) (pt : PTrack) (buf : List Nat) (v : GoVal)
    (tg : TagOpts) : Except CErr (GoVal × List Nat × GoHeap × PTrack) :=
  match fuel with
  | 0 => .error .outOfFuel
  | fuel' + 1 =>
    match v with
    | vBool _ =>
      match readByte buf with
      | .error e => .error e
      | .ok (b, rest) => .ok (if b = 0 then vBool false else vBool true, rest, h, pt)
    | vInt8 _ =>
      match readByte buf with
      | .error e => .error e
      | .ok (b, rest) => .ok (vInt8 (sInt 8 b), rest, h, pt)
    | vInt16 _ =>
      match readFull 2 buf with
      | .error e => .error e
      | .ok (bs, rest) => .ok (vInt16 (sInt 16 (rd2 bs)), rest, h, pt)
    | vInt32 _ =>
      match readFull 4 buf with
      | .error e => .error e
      | .ok (bs, rest) => .ok (vInt32 (sInt 32 (rd4 bs)), rest, h, pt)
    | vInt64 _ =>
      match readFull 8 buf with
      | .error e => .error e
      | .ok (bs, rest) => .ok (vInt64 (sInt 64 (rd8 bs)), rest, h, pt)
    | vUint8 _ =>
      match readByte buf with
      | .error e => .error e
      | .ok (b, rest) => .ok (vUint8 b, rest, h, pt)
    | vUint16 _ =>
      match readFull 2 buf with
      | .error e => .error e
      | .ok (bs, rest) => .ok (vUint16 (rd2 bs), rest, h, pt)
    | vUint32 _ =>
      match readFull 4 buf with
      | .error e => .error e
      | .ok (bs, rest) => .ok (vUint32 (rd4 bs), rest, h, pt)
    | vUint64 _ =>
      match readFull 8 buf with
      | .error e => .error e
      | .ok (bs, rest) => .ok (vUint64 (rd8 bs), rest, h, pt)
    | vFloat32 _ =>
      match readFull 4 buf with
      | .error e => .error e
      | .ok (bs, rest) => .ok (vFloat32 (rd4 bs), rest, h, pt)
    | vFloat64 _ =>
      match readFull 8 buf with
      | .error e => .error e
      | .ok (bs, rest) => .ok (vFloat64 (rd8 bs), rest, h, pt)
    | vString _ =>
      if tg.length ≠ 0 then
        if tg.length < 0 then .error .runtimePanic
        else
          match readFull tg.length.toNat buf with
          | .error e => .error e
          | .ok (bs, rest) =>
            if tg.bcd ≠ 0 then .error .externalCodec
            else if tg.gbk ∨ tg.gbk18030 then .error .externalCodec
            else .ok (vString bs, rest, h, pt)
      else
        if tg.bcd ≠ 0 then .error .externalCodec
        else if tg.gbk ∨ tg.gbk18030 then .error .externalCodec
        else .ok (vString buf, buf, h, pt)
    | vStruct fs =>
      match pass1 fs with
      | .error e => .error e
      | .ok fs2 =>
        match decFields fuel' h pt buf [] fs2 with
        | .error e => .error e
        | .ok (fs3, buf2, h2, pt2) => .ok (vStruct fs3, buf2, h2, pt2)
    | vArray es =>
      if tg.length ≠ 0 then
        if tg.length < 0 then .error .runtimePanic
        else
          match readFull tg.length.toNat buf with
          | .error e => .error e
          | .ok (b, rest) =>
            if 0 < es.length then
              match decArrLoop fuel' h pt b es 0 tg with
              | .error e => .error e
              | .ok (es2, h2, pt2, i2) =>
                .ok (vArray (if i2 < es2.length then zeroFillFrom i2 es2 else es2), rest, h2, pt2)
            else .ok (vArray es, rest, h, pt)
      else
        if 0 < es.length then
          match decArrLoop fuel' h pt buf es 0 tg with
          | .error e => .error e
          | .ok (es2, h2, pt2, i2) =>
            .ok (vArray (if i2 < es2.length then zeroFillFrom i2 es2 else es2), buf, h2, pt2)
        else .ok (vArray es, buf, h, pt)
    | vSlice z es =>
      if tg.length ≠ 0 then
        if tg.length < 0 then .error .runtimePanic
        else
          match readFull tg.length.toNat buf with
          | .error e => .error e
          | .ok (b, rest) =>
            match decSliceLoop fuel' h pt b z es es.length 0 tg with
            | .error e => .error e
            | .ok (es2, h2, pt2, i2) =>
              .ok (vSlice z (if i2 = 0 then [] else es2), rest, h2, pt2)
      else
        match decSliceLoop fuel' h pt buf z es es.length 0 tg with
        | .error e => .error e
        | .ok (es2, h2, pt2, i2) =>
          .ok (vSlice z (if i2 = 0 then [] else es2), buf, h2, pt2)
    | vPtr z addr =>
      match addr with
      | some a =>
        if startDetectingCyclesAfter < pt.level + 1 then
          if pt.seen.contains a then .error (.unsupportedValue "cycle")
          else
            match h.mem a with
            | none => .error .badHeap
            | some ev =>
              match decodeV fuel' h ⟨pt.level + 1, a :: pt.seen⟩ buf ev tg with
              | .error e => .error e
              | .ok (ev2, buf2, h2, pt2) =>
                .ok (vPtr z (some a), buf2, hSet h2 a ev2, ⟨pt2.level - 1, pt2.seen.erase a⟩)
        else
          match h.mem a with
          | none => .error .badHeap
          | some ev =>
            match decodeV fuel' h ⟨pt.level + 1, pt.seen⟩ buf ev tg with
            | .error e => .error e
            | .ok (ev2, buf2, h2, pt2) =>
              .ok (vPtr z (some a), buf2, hSet h2 a ev2, ⟨pt2.level - 1, pt2.seen⟩)
      | none =>
        let h1 := hAlloc h z
        let a := h.next
        if startDetectingCyclesAfter < pt.level + 1 then
          if pt.seen.contains a then .error (.unsupportedValue "cycle")
          else
            match h1.mem a with
            | none => .error .badHeap
            | some ev =>
              match decodeV fuel' h1 ⟨pt.level + 1, a :: pt.seen⟩ buf ev tg with
              | .error e => .error e
              | .ok (ev2, buf2, h2, pt2) =>
                .ok (vPtr z (some a), buf2, hSet h2 a ev2, ⟨pt2.level - 1, pt2.seen.erase a⟩)
        else
          match h1.mem a with
          | none => .error .badHeap
          | some ev =>
            match decodeV fuel' h1 ⟨pt.level + 1, pt.seen⟩ buf ev tg with
            | .error e => .error e
            | .ok (ev2, buf2, h2, pt2) =>
              .ok (vPtr z (some a), buf2, hSet h2 a ev2, ⟨pt2.level - 1, pt2.seen⟩)
    | vIface c =>
      match c with
      | none => .ok (v, buf, h, pt)
      | some e =>
        match decodeV fuel' h pt buf e tg with
        | .error e => .error e
        | .ok (e2, buf2, h2, pt2) => .ok (vIface (some e2), buf2, h2, pt2)

/-- Decode pass 2 of `structCoder.decode`: decode every field in order
with its (possibly pass-1-overridden) tag options, accumulating the
updated fields. -/
def decFields (fuel : Nat) (h : GoHeap) (pt : PTrack) (buf : List Nat)
    (acc rem : List SField) : Except CErr (List SField × List Nat × GoHeap × PTrack) :=
  match fuel with
  | 0 => .error .outOfFuel
  | fuel' + 1 =>
    match rem with
    | [] => .ok (acc, buf, h, pt)
    | (n, t, v) :: rest =>
      match decodeV fuel' h pt buf v t with
      | .error e => .error e
      | .ok (v2, buf2, h2, pt2) =>
        decFields fuel' h2 pt2 buf2 (acc ++ [(n, t, v2)]) rest

/-- The decode loop of `arrayCoder.decode` over the carved sub-region
`scc`: decode into element `i`, stop when the sub-region is exhausted.
The source loop never increments `i`, so it is threaded unchanged — a
faithful rendering of the `for { if i < v.Len() { ...; continue };
break }` loop in the coder file. -/
def decArrLoop (fuel : Nat) (h : GoHeap) (pt : PTrack) (scc : List Nat)
    (es : List GoVal) (i : Nat) (tg : TagOpts) :
    Except CErr (List GoVal × GoHeap × PTrack × Nat) :=
  match fuel with
  | 0 => .error .outOfFuel
  | fuel' + 1 =>
    if i < es.length then
      match decodeV fuel' h pt scc (es.getD i (vBool false)) tg with
      | .error e => .error e
      | .ok (e2, scc2, h2, pt2) =>
        if scc2.isEmpty then .ok (es.set i e2, h2, pt2, i)
        else decArrLoop fuel' h2 pt2 scc2 (es.set i e2) i tg
    else .ok (es, h, pt, i)

/-- The decode loop of `sliceCoder.decode`: grow the target if needed
(amortised 1.5x, minimum capacity 4, new slots zero-valued), extend the
length to cover index `i`, decode into element `i`, stop when the region
is exhausted.  As in the source, `i` is never incremented. -/
def decSliceLoop (fuel : Nat) (h : GoHeap) (pt : PTrack) (scc : List Nat)
    (z : GoVal) (es : List GoVal) (cap i : Nat) (tg : TagOpts) :
    Except CErr (List GoVal × GoHeap × PTrack × Nat) :=
  match fuel with
  | 0 => .error .outOfFuel
  | fuel' + 1 =>
    let cap2 := if cap ≤ i then (if cap + cap / 2 < 4 then 4 else cap + cap / 2) else cap
    let es1 := if es.length ≤ i then es ++ List.replicate (i + 1 - es.length) z else es
    match decodeV fuel' h pt scc (es1.getD i z) tg with
    | .error e => .error e
    | .ok (e2, scc2, h2, pt2) =>
      if scc2.isEmpty then .ok (es1.set i e2, h2, pt2, i)
      else decSliceLoop fuel' h2 pt2 scc2 z (es1.set i e2) cap2 i tg

end

/-- `Unmarshal`'s target check: the argument must be a non-nil pointer
(`rv.Kind() != reflect.Ptr || rv.IsNil()` rejects everything else). -/
def isPtrTarget : Option GoVal → Bool
  | some (vPtr _ (some _)) => true
  | _ => false

/-- The `Marshal` entry point: a `nil` interface argument yields an
invalid `reflect.Value` and hence the no-op `invalidValueCoder`; any
other value is encoded by its codec with a fresh codec state and zero
root tag options. -/
def marshalF (fuel : Nat) (h : GoHeap) (v : Option GoVal) : Except CErr (List Nat) :=
  match v with
  | none => .ok []
  | some v =>
    match encodeV fuel h pt0 v {} with
    | .error e => .error e
    | .ok (bs, _) => .ok bs

/-- The `Unmarshal` entry point: reject nil / non-pointer targets with
`InvalidUnmarshalError`, otherwise pre-load the buffer with the input
and run the pointer codec's decode on the target; unconsumed trailing
bytes are ignored.  Returns the updated target value and heap. -/
def unmarshalF (fuel : Nat) (data : List Nat) (h : GoHeap) (target : Option GoVal) :
    Except CErr (GoVal × GoHeap) :=
  match target with
  | some (vPtr z (some a)) =>
    match decodeV fuel h pt0 data (vPtr z (some a)) {} with
    | .error e => .error e
    | .ok (v2, _, h2, _) => .ok (v2, h2)
  | _ => .error .invalidUnmarshal

/-- Result of an unmarshal projected to the heap cell the target points
at (what the caller observes through the pointer afterwards). -/
def unmarshalAt (fuel : Nat) (data : List Nat) (h : GoHeap) (target : Option GoVal)
    (a : Nat) : Except CErr (Option GoVal) :=
  (unmarshalF fuel data h target).map (fun p => p.2.mem a)

/-! ## Concrete values used by the claims -/

/-- The C1 scenario struct: `{Len uint8 lengthref:Data; Data string}` with
`Data = "hi"` (bytes 0x68 0x69) and `Len` at its zero value. -/
def c1val : GoVal :=
  vStruct [("Len", { lengthref := "Data" }, vUint8 0), ("Data", {}, vString [104, 105])]

/-- The C3 scenario struct value: `{A uint16; B string length:4; C [5]byte}`
with `A = 1`, `B = "abcd"`, `C = [1,2,3,4,0]`. -/
def c3val : GoVal :=
  vStruct [("A", {}, vUint16 1), ("B", { length := 4 }, vString [97, 98, 99, 100]),
    ("C", {}, vArray [vUint8 1, vUint8 2, vUint8 3, vUint8 4, vUint8 0])]

/-- A zero value of the C3 struct type (the fresh Unmarshal target). -/
def c3zero : GoVal :=
  vStruct [("A", {}, vUint16 0), ("B", { length := 4 }, vString []),
    ("C", {}, vArray [vUint8 0, vUint8 0, vUint8 0, vUint8 0, vUint8 0])]

/-- The C2 scenario array value: a `[5]byte` holding `[1,2,3,4,0]`. -/
def arr5val : GoVal := vArray [vUint8 1, vUint8 2, vUint8 3, vUint8 4, vUint8 0]

/-- A C4 Unmarshal target of the C1 struct type whose `Len` field holds 3
on entry. -/
def c4tgt : GoVal :=
  vStruct [("Len", { lengthref := "Data" }, vUint8 3), ("Data", {}, vString [])]

/-! ## Byte-level round-trip lemmas -/

/-- Reading back two big-endian bytes recovers the value mod `2^16`. -/
theorem rd2_be2 (u : Nat) : rd2 (be2 u) = u % 2 ^ 16 := by
  simp [rd2, be2]
  omega

/-- Reading back four big-endian bytes recovers the value mod `2^32`. -/
theorem rd4_be4 (u : Nat) : rd4 (be4 u) = u % 2 ^ 32 := by
  simp [rd4, be4]
  omega

/-- Reading back eight big-endian bytes recovers the value mod `2^64`. -/
theorem rd8_be8 (u : Nat) : rd8 (be8 u) = u % 2 ^ 64 := by
  simp [rd8, be8]
  omega

/-- Signed 16-bit round trip through the wire representation. -/
theorem sInt16_emod (i : Int) (h1 : -(2 ^ 15) ≤ i) (h2 : i < 2 ^ 15) :
    sInt 16 ((i % (2 ^ 16)).toNat % 2 ^ 16) = i := by
  simp only [sInt]
  norm_num
  split <;> omega

/-- Signed 32-bit round trip through the wire representation. -/
theorem sInt32_emod (i : Int) (h1 : -(2 ^ 31) ≤ i) (h2 : i < 2 ^ 31) :
    sInt 32 ((i % (2 ^ 32)).toNat % 2 ^ 32) = i := by
  simp only [sInt]
  norm_num
  split <;> omega

/-- Signed 64-bit round trip through the wire representation. -/
theorem sInt64_emod (i : Int) (h1 : -(2 ^ 63) ≤ i) (h2 : i < 2 ^ 63) :
    sInt 64 ((i % (2 ^ 64)).toNat % 2 ^ 64) = i := by
  simp only [sInt]
  norm_num
  split <;> omega

/-! ## Claim theorems -/

/-- C1: the claim says Marshal of `{Len uint8 lengthref:Data; Data string}`
with `Data = "hi"` returns `02 68 69`.  On the code it does not:
`findref` compares the sibling's `lengthref` TAG against the holder's
`lengthref` tag (never the sibling's NAME), so the reference resolves to
the `Len` field itself; `encodeLengthref` then encodes `Len`'s own value
into both spliced segments (the second write wins at the shared index),
and `Data` — which `existLengthref` correctly recognises as referenced —
is skipped entirely.  Marshal returns the single byte `00`. -/
theorem C1_lengthref_concrete_code_bug :
    marshalF 20 hEmpty (some c1val) = .ok [0] ∧
    marshalF 20 hEmpty (some c1val) ≠ .ok [2, 104, 105] :=
  ⟨rfl, fun hc => absurd (Except.ok.inj hc) (by decide)⟩

/-- C2: the claim says `[5]byte` annotated `length:5` round-trips, and a
slice annotated `length:4` with 2-byte elements decodes to exactly 2
elements.  Encode is as claimed, but the decode loops of
`arrayCoder.decode` and `sliceCoder.decode` never increment their index
`i`: the array loop decodes every region byte into slot 0 and then (as
`i = 0 < len`) zero-fills the whole array; the slice loop likewise ends
with `i = 0`, and the `if i == 0` tail replaces the result by an empty
slice.  So the array decodes to all zeros and the slice to 0 elements. -/
theorem C2_container_length_code_bug :
    encodeV 20 hEmpty pt0 arr5val { length := 5 } = .ok ([1, 2, 3, 4, 0], pt0) ∧
    decodeV 20 hEmpty pt0 [1, 2, 3, 4, 0] arr5val { length := 5 }
      = .ok (vArray [vUint8 0, vUint8 0, vUint8 0, vUint8 0, vUint8 0], [], hEmpty, pt0) ∧
    decodeV 20 hEmpty pt0 [0, 1, 0, 2] (vSlice (vUint16 0) []) { length := 4 }
      = .ok (vSlice (vUint16 0) [], [], hEmpty, pt0) :=
  ⟨rfl, rfl, rfl⟩

/-- C3: the claim says the struct `{A uint16; B string length:4; C [5]byte}`
with `A=1, B="abcd", C=[1,2,3,4,0]` marshals to the 11 bytes
`00 01 61 62 63 64 01 02 03 04 00` (true on the code) and unmarshals
back to the same value (false: the `arrayCoder.decode` loop bug zeroes
`C`, so the decoded struct holds `C = [0,0,0,0,0]`). -/
theorem C3_struct_concrete_code_bug :
    marshalF 20 hEmpty (some c3val) = .ok [0, 1, 97, 98, 99, 100, 1, 2, 3, 4, 0] ∧
    unmarshalAt 50 [0, 1, 97, 98, 99, 100, 1, 2, 3, 4, 0] (hOfList [c3zero])
        (some (vPtr c3zero (some 0))) 0
      = .ok (some (vStruct [("A", {}, vUint16 1), ("B", { length := 4 }, vString [97, 98, 99, 100]),
          ("C", {}, vArray [vUint8 0, vUint8 0, vUint8 0, vUint8 0, vUint8 0])])) :=
  ⟨rfl, rfl⟩

/-- C4 counterexample: the claim says no decode ever changes the cached
per-field configuration.  Unmarshalling one byte into a `{Len uint8
lengthref:Data; Data string}` target whose `Len` currently holds 3 makes
decode pass 1 write `length := 3` into the cached tag options of the
field resolved by `findref` (the `Len` field itself, by the `findref`
tag-comparison), so the configuration a later call observes differs from
the one built on first use. -/
theorem C4_cache_mutation_counterexample :
    unmarshalAt 20 [5] (hOfList [c4tgt]) (some (vPtr c4tgt (some 0))) 0
      = .ok (some (vStruct [("Len", { lengthref := "Data", length := 3 }, vUint8 5),
          ("Data", {}, vString [])])) ∧
    ({ lengthref := "Data", length := 3 } : TagOpts) ≠ ({ lengthref := "Data" } : TagOpts) :=
  ⟨rfl, by decide⟩

/-- C5 counterexample: the claim says every float value encodes to its
fixed width; but `float32Coder.encode` rejects NaN (bit pattern
0x7FC00000) with an `UnsupportedValueError` instead of producing 4
bytes, so encode followed by decode is not the identity on every
fixed-width numeric value. -/
theorem C5_nan_encode_counterexample :
    encodeV 2 hEmpty pt0 (vFloat32 2143289344) {} = .error (.unsupportedValue "float NaN or Inf") :=
  rfl

/-- Defining equation: `int16Coder.encode`. -/
theorem enc_int16_eq (k : Nat) (i : Int) :
    encodeV (k + 1) hEmpty pt0 (vInt16 i) {} = .ok (be2 ((i % (2 ^ 16)).toNat), pt0) := rfl

/-- Defining equation: `int16Coder.decode` on a 2-byte buffer. -/
theorem dec_int16_eq (k u : Nat) :
    decodeV (k + 1) hEmpty pt0 (be2 u) (vInt16 0) {}
      = .ok (vInt16 (sInt 16 (rd2 (be2 u))), [], hEmpty, pt0) := rfl

/-- Defining equation: `int32Coder.encode`. -/
theorem enc_int32_eq (k : Nat) (i : Int) :
    encodeV (k + 1) hEmpty pt0 (vInt32 i) {} = .ok (be4 ((i % (2 ^ 32)).toNat), pt0) := rfl

/-- Defining equation: `int32Coder.decode` on a 4-byte buffer. -/
theorem dec_int32_eq (k u : Nat) :
    decodeV (k + 1) hEmpty pt0 (be4 u) (vInt32 0) {}
      = .ok (vInt32 (sInt 32 (rd4 (be4 u))), [], hEmpty, pt0) := rfl

/-- Defining equation: `int64Coder.encode`. -/
theorem enc_int64_eq (k : Nat) (i : Int) :
    encodeV (k + 1) hEmpty pt0 (vInt64 i) {} = .ok (be8 ((i % (2 ^ 64)).toNat), pt0) := rfl

/-- Defining equation: `int64Coder.decode` on an 8-byte buffer. -/
theorem dec_int64_eq (k u : Nat) :
    decodeV (k + 1) hEmpty pt0 (be8 u) (vInt64 0) {}
      = .ok (vInt64 (sInt 64 (rd8 (be8 u))), [], hEmpty, pt0) := rfl

/-- Defining equation: `uint16Coder.encode`. -/
theorem enc_uint16_eq (k u : Nat) :
    encodeV (k + 1) hEmpty pt0 (vUint16 u) {} = .ok (be2 (u % 2 ^ 16), pt0) := rfl

/-- Defining equation: `uint16Coder.decode` on a 2-byte buffer. -/
theorem dec_uint16_eq (k u : Nat) :
    decodeV (k + 1) hEmpty pt0 (be2 u) (vUint16 0) {}
      = .ok (vUint16 (rd2 (be2 u)), [], hEmpty, pt0) := rfl

/-- Defining equation: `uint32Coder.encode`. -/
theorem enc_uint32_eq (k u : Nat) :
    encodeV (k + 1) hEmpty pt0 (vUint32 u) {} = .ok (be4 (u % 2 ^ 32), pt0) := rfl

/-- Defining equation: `uint32Coder.decode` on a 4-byte buffer. -/
theorem dec_uint32_eq (k u : Nat) :
    decodeV (k + 1) hEmpty pt0 (be4 u) (vUint32 0) {}
      = .ok (vUint32 (rd4 (be4 u)), [], hEmpty, pt0) := rfl

/-- Defining equation: `uint64Coder.encode`. -/
theorem enc_uint64_eq (k u : Nat) :
    encodeV (k + 1) hEmpty pt0 (vUint64 u) {} = .ok (be8 (u % 2 ^ 64), pt0) := rfl

/-- Defining equation: `uint64Coder.decode` on an 8-byte buffer. -/
theorem dec_uint64_eq (k u : Nat) :
    decodeV (k + 1) hEmpty pt0 (be8 u) (vUint64 0) {}
      = .ok (vUint64 (rd8 (be8 u)), [], hEmpty, pt0) := rfl

/-- Defining equation: `float32Coder.decode` on a 4-byte buffer. -/
theorem dec_float32_eq (k u : Nat) :
    decodeV (k + 1) hEmpty pt0 (be4 u) (vFloat32 0) {}
      = .ok (vFloat32 (rd4 (be4 u)), [], hEmpty, pt0) := rfl

/-- Defining equation: `float64Coder.decode` on an 8-byte buffer. -/
theorem dec_float64_eq (k u : Nat) :
    decodeV (k + 1) hEmpty pt0 (be8 u) (vFloat64 0) {}
      = .ok (vFloat64 (rd8 (be8 u)), [], hEmpty, pt0) := rfl

/-- C5 (amended): for every fixed-width integer value in its type's range,
and every float value that is not NaN or an infinity, encoding produces
exactly 2/4/8 big-endian bytes and decoding those bytes reconstructs the
exact value (negative integers via two's-complement, floats via their
bit pattern).  The NaN/Inf exclusion is forced by the counterexample. -/
theorem C5_fixed_width_roundtrip :
    (∀ (k : Nat) (i : Int), -(2 ^ 15) ≤ i → i < 2 ^ 15 →
      encodeV (k + 1) hEmpty pt0 (vInt16 i) {} = .ok (be2 ((i % (2 ^ 16)).toNat), pt0) ∧
      (be2 ((i % (2 ^ 16)).toNat)).length = 2 ∧
      decodeV (k + 1) hEmpty pt0 (be2 ((i % (2 ^ 16)).toNat)) (vInt16 0) {}
        = .ok (vInt16 i, [], hEmpty, pt0)) ∧
    (∀ (k : Nat) (i : Int), -(2 ^ 31) ≤ i → i < 2 ^ 31 →
      encodeV (k + 1) hEmpty pt0 (vInt32 i) {} = .ok (be4 ((i % (2 ^ 32)).toNat), pt0) ∧
      (be4 ((i % (2 ^ 32)).toNat)).length = 4 ∧
      decodeV (k + 1) hEmpty pt0 (be4 ((i % (2 ^ 32)).toNat)) (vInt32 0) {}
        = .ok (vInt32 i, [], hEmpty, pt0)) ∧
    (∀ (k : Nat) (i : Int), -(2 ^ 63) ≤ i → i < 2 ^ 63 →
      encodeV (k + 1) hEmpty pt0 (vInt64 i) {} = .ok (be8 ((i % (2 ^ 64)).toNat), pt0) ∧
      (be8 ((i % (2 ^ 64)).toNat)).length = 8 ∧
      decodeV (k + 1) hEmpty pt0 (be8 ((i % (2 ^ 64)).toNat)) (vInt64 0) {}
        = .ok (vInt64 i, [], hEmpty, pt0)) ∧
    (∀ (k u : Nat), u < 2 ^ 16 →
      encodeV (k + 1) hEmpty pt0 (vUint16 u) {} = .ok (be2 (u % 2 ^ 16), pt0) ∧
      (be2 (u % 2 ^ 16)).length = 2 ∧
      decodeV (k + 1) hEmpty pt0 (be2 (u % 2 ^ 16)) (vUint16 0) {}
        = .ok (vUint16 u, [], hEmpty, pt0)) ∧
    (∀ (k u : Nat), u < 2 ^ 32 →
      encodeV (k + 1) hEmpty pt0 (vUint32 u) {} = .ok (be4 (u % 2 ^ 32), pt0) ∧
      (be4 (u % 2 ^ 32)).length = 4 ∧
      decodeV (k + 1) hEmpty pt0 (be4 (u % 2 ^ 32)) (vUint32 0) {}
        = .ok (vUint32 u, [], hEmpty, pt0)) ∧
    (∀ (k u : Nat), u < 2 ^ 64 →
      encodeV (k + 1) hEmpty pt0 (vUint64 u) {} = .ok (be8 (u % 2 ^ 64), pt0) ∧
      (be8 (u % 2 ^ 64)).length = 8 ∧
      decodeV (k + 1) hEmpty pt0 (be8 (u % 2 ^ 64)) (vUint64 0) {}
        = .ok (vUint64 u, [], hEmpty, pt0)) ∧
    (∀ (k bits : Nat), bits < 2 ^ 32 → f32NaNorInf bits = false →
      encodeV (k + 1) hEmpty pt0 (vFloat32 bits) {} = .ok (be4 (bits % 2 ^ 32), pt0) ∧
      (be4 (bits % 2 ^ 32)).length = 4 ∧
      decodeV (k + 1) hEmpty pt0 (be4 (bits % 2 ^ 32)) (vFloat32 0) {}
        = .ok (vFloat32 bits, [], hEmpty, pt0)) ∧
    (∀ (k bits : Nat), bits < 2 ^ 64 → f64NaNorInf bits = false →
      encodeV (k + 1) hEmpty pt0 (vFloat64 bits) {} = .ok (be8 (bits % 2 ^ 64), pt0) ∧
      (be8 (bits % 2 ^ 64)).length = 8 ∧
      decodeV (k + 1) hEmpty pt0 (be8 (bits % 2 ^ 64)) (vFloat64 0) {}
        = .ok (vFloat64 bits, [], hEmpty, pt0)) := by
  refine ⟨?_, ?_, ?_, ?_, ?_, ?_, ?_, ?_⟩
  · intro k i h1 h2
    refine ⟨enc_int16_eq k i, rfl, ?_⟩
    rw [dec_int16_eq, rd2_be2, sInt16_emod i h1 h2]
  · intro k i h1 h2
    refine ⟨enc_int32_eq k i, rfl, ?_⟩
    rw [dec_int32_eq, rd4_be4, sInt32_emod i h1 h2]
  · intro k i h1 h2
    refine ⟨enc_int64_eq k i, rfl, ?_⟩
    rw [dec_int64_eq, rd8_be8, sInt64_emod i h1 h2]
  · intro k u hu
    refine ⟨enc_uint16_eq k u, rfl, ?_⟩
    rw [dec_uint16_eq, rd2_be2, show u % 2 ^ 16 % 2 ^ 16 = u from by omega]
  · intro k u hu
    refine ⟨enc_uint32_eq k u, rfl, ?_⟩
    rw [dec_uint32_eq, rd4_be4, show u % 2 ^ 32 % 2 ^ 32 = u from by omega]
  · intro k u hu
    refine ⟨enc_uint64_eq k u, rfl, ?_⟩
    rw [dec_uint64_eq, rd8_be8, show u % 2 ^ 64 % 2 ^ 64 = u from by omega]
  · intro k bits hb hnan
    refine ⟨by simp [encodeV, hnan], rfl, ?_⟩
    rw [dec_float32_eq, rd4_be4, show bits % 2 ^ 32 % 2 ^ 32 = bits from by omega]
  · intro k bits hb hnan
    refine ⟨by simp [encodeV, hnan], rfl, ?_⟩
    rw [dec_float64_eq, rd8_be8, show bits % 2 ^ 64 % 2 ^ 64 = bits from by omega]

/-- Witness for the C5 round-trip theorem at concrete values of every
width, including a negative integer per signed width and ordinary float
bit patterns. -/
theorem C5_fixed_width_roundtrip_witness :
    (encodeV 1 hEmpty pt0 (vInt16 (-1)) {} = .ok (be2 (((-1 : Int) % (2 ^ 16)).toNat), pt0) ∧
      (be2 (((-1 : Int) % (2 ^ 16)).toNat)).length = 2 ∧
      decodeV 1 hEmpty pt0 (be2 (((-1 : Int) % (2 ^ 16)).toNat)) (vInt16 0) {}
        = .ok (vInt16 (-1), [], hEmpty, pt0)) ∧
    (encodeV 1 hEmpty pt0 (vInt32 (-2)) {} = .ok (be4 (((-2 : Int) % (2 ^ 32)).toNat), pt0) ∧
      (be4 (((-2 : Int) % (2 ^ 32)).toNat)).length = 4 ∧
      decodeV 1 hEmpty pt0 (be4 (((-2 : Int) % (2 ^ 32)).toNat)) (vInt32 0) {}
        = .ok (vInt32 (-2), [], hEmpty, pt0)) ∧
    (encodeV 1 hEmpty pt0 (vInt64 (-3)) {} = .ok (be8 (((-3 : Int) % (2 ^ 64)).toNat), pt0) ∧
      (be8 (((-3 : Int) % (2 ^ 64)).toNat)).length = 8 ∧
      decodeV 1 hEmpty pt0 (be8 (((-3 : Int) % (2 ^ 64)).toNat)) (vInt64 0) {}
        = .ok (vInt64 (-3), [], hEmpty, pt0)) ∧
    (encodeV 1 hEmpty pt0 (vUint16 9) {} = .ok (be2 (9 % 2 ^ 16), pt0) ∧
      (be2 (9 % 2 ^ 16)).length = 2 ∧
      decodeV 1 hEmpty pt0 (be2 (9 % 2 ^ 16)) (vUint16 0) {}
        = .ok (vUint16 9, [], hEmpty, pt0)) ∧
    (encodeV 1 hEmpty pt0 (vUint32 10) {} = .ok (be4 (10 % 2 ^ 32), pt0) ∧
      (be4 (10 % 2 ^ 32)).length = 4 ∧
      decodeV 1 hEmpty pt0 (be4 (10 % 2 ^ 32)) (vUint32 0) {}
        = .ok (vUint32 10, [], hEmpty, pt0)) ∧
    (encodeV 1 hEmpty pt0 (vUint64 11) {} = .ok (be8 (11 % 2 ^ 64), pt0) ∧
      (be8 (11 % 2 ^ 64)).length = 8 ∧
      decodeV 1 hEmpty pt0 (be8 (11 % 2 ^ 64)) (vUint64 0) {}
        = .ok (vUint64 11, [], hEmpty, pt0)) ∧
    (encodeV 1 hEmpty pt0 (vFloat32 1096810496) {} = .ok (be4 (1096810496 % 2 ^ 32), pt0) ∧
      (be4 (1096810496 % 2 ^ 32)).length = 4 ∧
      decodeV 1 hEmpty pt0 (be4 (1096810496 % 2 ^ 32)) (vFloat32 0) {}
        = .ok (vFloat32 1096810496, [], hEmpty, pt0)) ∧
    (encodeV 1 hEmpty pt0 (vFloat64 4607182418800017408) {}
        = .ok (be8 (4607182418800017408 % 2 ^ 64), pt0) ∧
      (be8 (4607182418800017408 % 2 ^ 64)).length = 8 ∧
      decodeV 1 hEmpty pt0 (be8 (4607182418800017408 % 2 ^ 64)) (vFloat64 0) {}
        = .ok (vFloat64 4607182418800017408, [], hEmpty, pt0)) :=
  ⟨C5_fixed_width_roundtrip.1 0 (-1) (by norm_num) (by norm_num),
   C5_fixed_width_roundtrip.2.1 0 (-2) (by norm_num) (by norm_num),
   C5_fixed_width_roundtrip.2.2.1 0 (-3) (by norm_num) (by norm_num),
   C5_fixed_width_roundtrip.2.2.2.1 0 9 (by norm_num),
   C5_fixed_width_roundtrip.2.2.2.2.1 0 10 (by norm_num),
   C5_fixed_width_roundtrip.2.2.2.2.2.1 0 11 (by norm_num),
   C5_fixed_width_roundtrip.2.2.2.2.2.2.1 0 1096810496 (by norm_num) (by decide),
   C5_fixed_width_roundtrip.2.2.2.2.2.2.2 0 4607182418800017408 (by norm_num) (by decide)⟩

/-- C8 counterexample: the claim says Unmarshal fails with
`InsufficientData` exactly when a required read needs more bytes than
remain.  Decoding a `uint16` target (a required 2-byte read) from a
1-byte input succeeds with value `0x0100` instead of failing:
`bytes.Buffer.Read` only errors on a completely empty buffer and the
caller ignores the short count, so the missing byte is silently read as
zero. -/
theorem C8_partial_read_counterexample :
    unmarshalAt 9 [1] (hOfList [vUint16 0]) (some (vPtr (vUint16 0) (some 0))) 0
      = .ok (some (vUint16 256)) :=
  rfl

/-- C8 (amended): a decode read fails with `DataLengthErr` exactly when
it begins with the buffer already empty; a read that finds some but not
all of the bytes it needs succeeds, zero-filling the remainder; and
unconsumed trailing bytes after a completed decode are not an error. -/
theorem C8_insufficient_data_amended :
    (∀ (n : Nat) (buf : List Nat), readFull n buf = .error .dataLength ↔ buf = [] ∧ 0 < n) ∧
    (∀ (k : Nat) (h : GoHeap) (pt : PTrack) (tg : TagOpts),
      decodeV (k + 1) h pt [] (vUint16 0) tg = .error .dataLength) ∧
    (∀ (k : Nat) (h : GoHeap) (pt : PTrack) (tg : TagOpts) (b : Nat),
      decodeV (k + 1) h pt [b] (vUint16 0) tg = .ok (vUint16 (b * 256), [], h, pt)) ∧
    (∀ (k : Nat) (b z0 : Nat) (rest : List Nat),
      unmarshalAt (k + 2) (b :: rest) (hOfList [vUint8 z0])
          (some (vPtr (vUint8 z0) (some 0))) 0
        = .ok (some (vUint8 b))) := by
  refine ⟨?_, fun _ _ _ _ => rfl, fun _ _ _ _ _ => rfl, fun _ _ _ _ => rfl⟩
  intro n buf
  constructor
  · intro he
    by_cases hc : buf.isEmpty ∧ 0 < n
    · exact ⟨List.isEmpty_iff.mp hc.1, hc.2⟩
    · rw [readFull, if_neg hc] at he
      exact absurd he (by simp)
  · rintro ⟨rfl, hn⟩
    rw [readFull, if_pos ⟨rfl, hn⟩]

/-- C9: Unmarshal with a target that is nil or not a non-nil pointer
fails with `InvalidUnmarshalError` before anything is decoded. -/
theorem C9_invalid_unmarshal_target (fuel : Nat) (data : List Nat) (h : GoHeap)
    (v : Option GoVal) (hv : isPtrTarget v = false) :
    unmarshalF fuel data h v = .error .invalidUnmarshal := by
  cases v with
  | none => rfl
  | some w =>
    cases w <;> try rfl
    case vPtr z addr =>
      cases addr with
      | none => rfl
      | some a => simp [isPtrTarget] at hv

/-- Witness: the spec's concrete scenario `Unmarshal([]byte{0x01},
nonPointerValue)` fails with the invalid-target error. -/
theorem C9_invalid_unmarshal_target_witness :
    unmarshalF 9 [1] hEmpty (some (vUint8 5)) = .error .invalidUnmarshal :=
  C9_invalid_unmarshal_target 9 [1] hEmpty (some (vUint8 5)) rfl

/-- C10: Marshal of a nil value returns an empty byte sequence with no
error (the invalid value is handled by the no-op `invalidValueCoder`),
and an empty dynamic slot (nil interface) likewise encodes to nothing. -/
theorem C10_marshal_nil_empty :
    (∀ (fuel : Nat) (h : GoHeap), marshalF fuel h none = .ok []) ∧
    (∀ (fuel : Nat) (h : GoHeap) (pt : PTrack) (tg : TagOpts),
      encodeV (fuel + 1) h pt (vIface none) tg = .ok ([], pt)) ∧
    (∀ (fuel : Nat) (h : GoHeap), marshalF (fuel + 1) h (some (vIface none)) = .ok []) :=
  ⟨fun _ _ => rfl, fun _ _ _ _ => rfl, fun _ _ => rfl⟩

theorem encFields_cons_plain (fuel : Nat) (h : GoHeap) (pt : PTrack) (all : List SField)
    (i : Nat) (f : SField) (rest : List (Nat × SField)) (buf : List (List Nat))
    (hl : (sfTags f).lengthref = "") (hex : existLengthref all f = false) :
    encFields (fuel + 1) h pt all ((i, f) :: rest) buf
      = match encodeV fuel h pt (sfVal f) (sfTags f) with
        | .error e => .error e
        | .ok (bs, pt2) => encFields fuel h pt2 all rest (buf.set i bs) := by
  simp [encFields, hl, hex]

theorem encodeV_struct2 (m : Nat) (h : GoHeap) (pt ptA ptB : PTrack) (f1 f2 : SField)
    (tg : TagOpts) (b1 b2 : List Nat)
    (hl1 : (sfTags f1).lengthref = "") (hl2 : (sfTags f2).lengthref = "")
    (hn1 : sfName f1 ≠ "") (hn2 : sfName f2 ≠ "")
    (e1 : encodeV (m + 2) h pt (sfVal f1) (sfTags f1) = .ok (b1, ptA))
    (e2 : encodeV (m + 1) h ptA (sfVal f2) (sfTags f2) = .ok (b2, ptB)) :
    encodeV (m + 4) h pt (vStruct [f1, f2]) tg = .ok (b1 ++ b2, ptB) := by
  have hex1 : existLengthref [f1, f2] f1 = false := by
    simp [existLengthref, hl1, hl2, beq_false_of_ne (Ne.symm hn1)]
  have hex2 : existLengthref [f1, f2] f2 = false := by
    simp [existLengthref, hl1, hl2, beq_false_of_ne (Ne.symm hn2)]
  have s1 : encodeV (m + 4) h pt (vStruct [f1, f2]) tg
      = match encFields (m + 3) h pt [f1, f2] [(0, f1), (1, f2)] [[], []] with
        | .error e => .error e
        | .ok (buf, pt2) => .ok (buf.flatten, pt2) := rfl
  have s2 : encFields (m + 3) h pt [f1, f2] [(0, f1), (1, f2)] [[], []]
      = encFields (m + 2) h ptA [f1, f2] [(1, f2)] [b1, []] := by
    rw [encFields_cons_plain _ _ _ _ _ _ _ _ hl1 hex1, e1]
    rfl
  have s3 : encFields (m + 2) h ptA [f1, f2] [(1, f2)] [b1, []]
      = encFields (m + 1) h ptB [f1, f2] [] [b1, b2] := by
    rw [encFields_cons_plain _ _ _ _ _ _ _ _ hl2 hex2, e2]
    rfl
  have s4 : encFields (m + 1) h ptB [f1, f2] [] [b1, b2] = .ok ([b1, b2], ptB) := rfl
  rw [s1, s2, s3, s4]
  simp

/-- C7: encoding a nil reference writes exactly zero bytes and does not
disturb the cycle guard; at the struct level the nil field is not
skipped, so a downstream field's bytes begin immediately (the whole
encoding is just the downstream field's bytes); on decode, a nil target
reference is first given a freshly allocated zero value of its element
type and decoding then proceeds into that storage (so decode always has
storage to write into), as the concrete run in the last conjunct shows:
decoding one byte through a nil `*uint8` allocates cell 1 and stores the
byte there. -/
theorem C7_nil_pointer_encode_decode :
    (∀ (fuel : Nat) (h : GoHeap) (pt : PTrack) (z : GoVal) (tg : TagOpts),
      encodeV (fuel + 1) h pt (vPtr z none) tg = .ok ([], pt)) ∧
    (∀ (m : Nat) (h : GoHeap) (pt : PTrack) (z : GoVal) (u : Nat) (n1 n2 : String)
       (tg : TagOpts), n1 ≠ "" → n2 ≠ "" →
      encodeV (m + 4) h pt (vStruct [(n1, {}, vPtr z none), (n2, {}, vUint8 u)]) tg
        = .ok ([u % 256], pt)) ∧
    (∀ (fuel : Nat) (h : GoHeap) (pt : PTrack) (buf : List Nat) (z : GoVal) (tg : TagOpts),
      decodeV (fuel + 1) h pt buf (vPtr z none) tg
        = decodeV (fuel + 1) (hAlloc h z) pt buf (vPtr z (some h.next)) tg) ∧
    (unmarshalAt 9 [7] (hOfList [vPtr (vUint8 0) none])
        (some (vPtr (vPtr (vUint8 0) none) (some 0))) 0
      = .ok (some (vPtr (vUint8 0) (some 1))) ∧
     unmarshalAt 9 [7] (hOfList [vPtr (vUint8 0) none])
        (some (vPtr (vPtr (vUint8 0) none) (some 0))) 1
      = .ok (some (vUint8 7))) := by
  refine ⟨fun _ _ _ _ _ => rfl, ?_, fun _ _ _ _ _ _ => rfl, rfl, rfl⟩
  intro m h pt z u n1 n2 tg hn1 hn2
  exact encodeV_struct2 m h pt pt pt (n1, {}, vPtr z none) (n2, {}, vUint8 u) tg
    [] [u % 256] rfl rfl hn1 hn2 rfl rfl

/-- Witness for the C7 theorem: the struct-level conjunct at a concrete
two-field struct whose first field is a nil pointer. -/
theorem C7_nil_pointer_encode_decode_witness :
    encodeV 9 hEmpty pt0 (vStruct [("P", {}, vPtr (vBool false) none), ("X", {}, vUint8 7)]) {}
      = .ok ([7], pt0) :=
  C7_nil_pointer_encode_decode.2.1 5 hEmpty pt0 (vBool false) 7 "P" "X" {}
    (by decide) (by decide)

/-- Decode pass 1 is the identity on a field list in which no field
declares a `lengthref`. -/
theorem pass1step_id (fs : List SField) (i : Nat)
    (hno : ∀ f ∈ fs, (sfTags f).lengthref = "") : pass1step fs i = .ok fs := by
  unfold pass1step
  cases hg : fs.get? i with
  | none => rfl
  | some f =>
    have hf : (sfTags f).lengthref = "" := hno f (List.get?_mem hg)
    simp [hf]

/-- Decode pass 1 leaves a `lengthref`-free field list untouched. -/
theorem pass1_id (fs : List SField) (hno : ∀ f ∈ fs, (sfTags f).lengthref = "") :
    pass1 fs = .ok fs := by
  unfold pass1
  generalize List.range fs.length = l
  induction l with
  | nil => rfl
  | cons i l ih =>
    calc List.foldlM pass1step fs (i :: l)
        = pass1step fs i >>= fun x => List.foldlM pass1step x l := rfl
      _ = List.foldlM pass1step fs l := by rw [pass1step_id fs i hno]; rfl
      _ = .ok fs := ih

/-- Decode pass 2 never changes a field's name or tag configuration: a
successful run returns the accumulated and remaining fields with only
the value components replaced. -/
theorem decFields_meta (fuel : Nat) :
    ∀ (acc rem : List SField) (h : GoHeap) (pt : PTrack) (buf : List Nat)
      (out : List SField × List Nat × GoHeap × PTrack),
      decFields fuel h pt buf acc rem = .ok out →
      out.1.map (fun f => (sfName f, sfTags f))
        = acc.map (fun f => (sfName f, sfTags f)) ++ rem.map (fun f => (sfName f, sfTags f)) := by
  induction fuel with
  | zero =>
    intro acc rem h pt buf out hok
    exact absurd hok (by simp [decFields])
  | succ fuel ih =>
    intro acc rem h pt buf out hok
    cases rem with
    | nil =>
      have hok2 : (Except.ok (acc, buf, h, pt) : Except CErr _) = .ok out := hok
      simp only [Except.ok.injEq] at hok2
      rw [← hok2]
      simp
    | cons sf rest =>
      obtain ⟨n, t, v⟩ := sf
      cases hd : decodeV fuel h pt buf v t with
      | error e =>
        have hok2 : (match decodeV fuel h pt buf v t with
          | .error e => (.error e : Except CErr (List SField × List Nat × GoHeap × PTrack))
          | .ok (v2, buf2, h2, pt2) =>
            decFields fuel h2 pt2 buf2 (acc ++ [(n, t, v2)]) rest) = .ok out := hok
        rw [hd] at hok2
        exact absurd hok2 (by simp)
      | ok r =>
        obtain ⟨v2, buf2, h2, pt2⟩ := r
        have hok2 : (match decodeV fuel h pt buf v t with
          | .error e => (.error e : Except CErr (List SField × List Nat × GoHeap × PTrack))
          | .ok (v2, buf2, h2, pt2) =>
            decFields fuel h2 pt2 buf2 (acc ++ [(n, t, v2)]) rest) = .ok out := hok
        rw [hd] at hok2
        have hmeta := ih (acc ++ [(n, t, v2)]) rest h2 pt2 buf2 out hok2
        rw [hmeta]
        simp [sfName, sfTags]

/-- C4 (amended): struct decode mutates the cached per-field
configuration only through the `lengthref` override of pass 1; when no
field of the struct declares a `lengthref`, a successful decode returns
the field list with every name and tag configuration exactly as built on
first use (and encode reads the configuration without ever writing it). -/
theorem C4_no_lengthref_config_preserved (fuel : Nat) (h : GoHeap) (pt : PTrack)
    (buf : List Nat) (fs : List SField) (tg : TagOpts)
    (out : GoVal × List Nat × GoHeap × PTrack)
    (hno : ∀ f ∈ fs, (sfTags f).lengthref = "")
    (hok : decodeV (fuel + 1) h pt buf (vStruct fs) tg = .ok out) :
    ∃ fs2, out.1 = vStruct fs2 ∧
      fs2.map (fun f => (sfName f, sfTags f)) = fs.map (fun f => (sfName f, sfTags f)) := by
  have hok1 : (match pass1 fs with
      | .error e => (.error e : Except CErr (GoVal × List Nat × GoHeap × PTrack))
      | .ok fs2 =>
        match decFields fuel h pt buf [] fs2 with
        | .error e => .error e
        | .ok (fs3, buf2, h2, pt2) => .ok (vStruct fs3, buf2, h2, pt2)) = .ok out := hok
  rw [pass1_id fs hno] at hok1
  cases hd : decFields fuel h pt buf [] fs with
  | error e =>
    have hok2 : (match decFields fuel h pt buf [] fs with
      | .error e => (.error e : Except CErr (GoVal × List Nat × GoHeap × PTrack))
      | .ok (fs3, buf2, h2, pt2) => .ok (vStruct fs3, buf2, h2, pt2)) = .ok out := hok1
    rw [hd] at hok2
    exact absurd hok2 (by simp)
  | ok r =>
    obtain ⟨fs3, buf2, h2, pt2⟩ := r
    have hok2 : (match decFields fuel h pt buf [] fs with
      | .error e => (.error e : Except CErr (GoVal × List Nat × GoHeap × PTrack))
      | .ok (fs3, buf2, h2, pt2) => .ok (vStruct fs3, buf2, h2, pt2)) = .ok out := hok1
    rw [hd] at hok2
    simp only [Except.ok.injEq] at hok2
    refine ⟨fs3, ?_, ?_⟩
    · rw [← hok2]
    · have := decFields_meta fuel [] fs h pt buf (fs3, buf2, h2, pt2) hd
      simpa using this

/-- Witness for the C4 amended theorem: decoding the 11-byte stream into
the `lengthref`-free C3 struct preserves every field name and tag
configuration. -/
theorem C4_no_lengthref_config_preserved_witness :
    ∃ fs2, (vStruct [("A", {}, vUint16 1), ("B", { length := 4 }, vString [97, 98, 99, 100]),
        ("C", {}, vArray [vUint8 0, vUint8 0, vUint8 0, vUint8 0, vUint8 0])] : GoVal)
        = vStruct fs2 ∧
      fs2.map (fun f => (sfName f, sfTags f))
        = ([("A", {}, vUint16 0), ("B", { length := 4 }, vString []),
            ("C", {}, vArray [vUint8 0, vUint8 0, vUint8 0, vUint8 0, vUint8 0])] :
            List SField).map (fun f => (sfName f, sfTags f)) :=
  C4_no_lengthref_config_preserved 49 hEmpty pt0 [0, 1, 97, 98, 99, 100, 1, 2, 3, 4, 0]
    [("A", {}, vUint16 0), ("B", { length := 4 }, vString []),
     ("C", {}, vArray [vUint8 0, vUint8 0, vUint8 0, vUint8 0, vUint8 0])] {}
    (vStruct [("A", {}, vUint16 1), ("B", { length := 4 }, vString [97, 98, 99, 100]),
        ("C", {}, vArray [vUint8 0, vUint8 0, vUint8 0, vUint8 0, vUint8 0])],
      [1, 2, 3, 4, 0], hEmpty, pt0)
    (by decide) rfl

/-- Unfolding equation of `ptrCoder.encode` on a non-nil pointer. -/
theorem enc_ptr_eq (fuel : Nat) (h : GoHeap) (lvl : Nat) (s : List Nat) (x : Nat)
    (zz : GoVal) (tg : TagOpts) :
    encodeV (fuel + 1) h ⟨lvl, s⟩ (vPtr zz (some x)) tg
      = if startDetectingCyclesAfter < lvl + 1 then
          (if s.contains x then .error (.unsupportedValue "cycle")
           else match h.mem x with
             | none => .error .badHeap
             | some ev =>
               match encodeV fuel h ⟨lvl + 1, x :: s⟩ ev tg with
               | .error e => .error e
               | .ok (bs, pt2) => .ok (bs, ⟨pt2.level - 1, pt2.seen.erase x⟩))
        else match h.mem x with
          | none => .error .badHeap
          | some ev =>
            match encodeV fuel h ⟨lvl + 1, s⟩ ev tg with
            | .error e => .error e
            | .ok (bs, pt2) => .ok (bs, ⟨pt2.level - 1, pt2.seen⟩) := rfl

/-- Below the detection threshold, `ptrCoder.encode` propagates an error
from the pointed-to value unchanged. -/
theorem enc_ptr_low (fuel : Nat) (h : GoHeap) (lvl : Nat) (s : List Nat) (x : Nat)
    (w zz : GoVal) (tg : TagOpts) (e : CErr)
    (hlow : ¬ startDetectingCyclesAfter < lvl + 1)
    (hm : h.mem x = some w)
    (hrec : encodeV fuel h ⟨lvl + 1, s⟩ w tg = .error e) :
    encodeV (fuel + 1) h ⟨lvl, s⟩ (vPtr zz (some x)) tg = .error e := by
  rw [enc_ptr_eq, if_neg hlow]
  simp only [hm, hrec]

/-- Past the detection threshold with an unseen identity,
`ptrCoder.encode` marks the pointer and propagates an error from the
pointed-to value unchanged. -/
theorem enc_ptr_high (fuel : Nat) (h : GoHeap) (lvl : Nat) (s : List Nat) (x : Nat)
    (w zz : GoVal) (tg : TagOpts) (e : CErr)
    (hhigh : startDetectingCyclesAfter < lvl + 1)
    (hns : s.contains x = false)
    (hm : h.mem x = some w)
    (hrec : encodeV fuel h ⟨lvl + 1, x :: s⟩ w tg = .error e) :
    encodeV (fuel + 1) h ⟨lvl, s⟩ (vPtr zz (some x)) tg = .error e := by
  rw [enc_ptr_eq, if_pos hhigh]
  simp only [hns, hm, hrec]
  rfl

/-- Past the detection threshold, revisiting a pointer identity already
on the active path fails with the cycle error. -/
theorem enc_ptr_detect (fuel : Nat) (h : GoHeap) (lvl : Nat) (s : List Nat) (x : Nat)
    (zz : GoVal) (tg : TagOpts)
    (hhigh : startDetectingCyclesAfter < lvl + 1)
    (hs : s.contains x = true) :
    encodeV (fuel + 1) h ⟨lvl, s⟩ (vPtr zz (some x)) tg
      = .error (.unsupportedValue "cycle") := by
  rw [enc_ptr_eq, if_pos hhigh]
  simp only [hs]
  rfl

/-- The zero-element component of a pointer value does not influence its
encoding (the coder dispatches on the address only). -/
theorem enc_ptr_z_irrel (fuel : Nat) (h : GoHeap) (pt : PTrack) (x : Nat)
    (z1 z2 : GoVal) (tg : TagOpts) :
    encodeV fuel h pt (vPtr z1 (some x)) tg = encodeV fuel h pt (vPtr z2 (some x)) tg := by
  cases fuel with
  | zero => rfl
  | succ k => rfl

/-- Phase 2 of the cycle argument: past the threshold, encoding along a
heap of pointer cells fails with the cycle error as soon as the forward
orbit is guaranteed to revisit the guard set or itself within `T`
steps. -/
theorem chain_detect (nf : Nat → Nat) (z : Nat → GoVal) (h : GoHeap)
    (hch : ∀ n, h.mem n = some (vPtr (z n) (some (nf n)))) (tg : TagOpts) :
    ∀ (T : Nat), ∀ (x : Nat) (s : List Nat) (lvl fuel : Nat) (zz : GoVal),
      startDetectingCyclesAfter ≤ lvl → T + 1 ≤ fuel →
      (∃ t, t ≤ T ∧ (s.contains (nf^[t] x) = true ∨ ∃ r, r < t ∧ nf^[r] x = nf^[t] x)) →
      encodeV fuel h ⟨lvl, s⟩ (vPtr zz (some x)) tg = .error (.unsupportedValue "cycle") := by
  intro T
  induction T with
  | zero =>
    intro x s lvl fuel zz hlvl hfuel hwit
    obtain ⟨t, ht, hw⟩ := hwit
    interval_cases t
    rcases hw with hc | ⟨r, hr, _⟩
    · obtain ⟨fu, rfl⟩ : ∃ fu, fuel = fu + 1 := ⟨fuel - 1, by omega⟩
      exact enc_ptr_detect fu h lvl s x zz tg (by omega) (by simpa using hc)
    · omega
  | succ T ih =>
    intro x s lvl fuel zz hlvl hfuel hwit
    obtain ⟨fu, rfl⟩ : ∃ fu, fuel = fu + 1 := ⟨fuel - 1, by omega⟩
    by_cases hx : s.contains x
    · exact enc_ptr_detect fu h lvl s x zz tg (by omega) hx
    · have hxf : s.contains x = false := by simpa using hx
      obtain ⟨t, ht, hw⟩ := hwit
      have ht1 : 1 ≤ t := by
        by_contra hcon
        have ht0 : t = 0 := by omega
        subst ht0
        rcases hw with hc | ⟨r, hr, _⟩
        · rw [Function.iterate_zero_apply] at hc
          rw [hc] at hxf
          exact absurd hxf (by simp)
        · omega
      refine enc_ptr_high fu h lvl s x (vPtr (z x) (some (nf x))) zz tg _ (by omega) hxf
        (hch x) ?_
      refine ih (nf x) (x :: s) (lvl + 1) fu (z x) (by omega) (by omega) ?_
      refine ⟨t - 1, by omega, ?_⟩
      have hiter : nf^[t - 1] (nf x) = nf^[t] x := by
        rw [← Function.iterate_succ_apply]
        congr 1
        omega
      rcases hw with hc | ⟨r, hr, hre⟩
      · left
        rw [hiter, List.contains_cons, hc]
        simp
      · rcases Nat.eq_zero_or_pos r with hr0 | hrpos
        · subst hr0
          left
          rw [Function.iterate_zero_apply] at hre
          rw [hiter, ← hre, List.contains_cons]
          simp
        · right
          refine ⟨r - 1, by omega, ?_⟩
          rw [hiter]
          have hiter2 : nf^[r - 1] (nf x) = nf^[r] x := by
            rw [← Function.iterate_succ_apply]
            congr 1
            omega
          rw [hiter2, hre]

/-- Phase 1 of the cycle argument: below the threshold the pointer coder
simply descends, so an error reached after `m` further steps surfaces
unchanged. -/
theorem chain_climb (nf : Nat → Nat) (z : Nat → GoVal) (h : GoHeap)
    (hch : ∀ n, h.mem n = some (vPtr (z n) (some (nf n)))) (tg : TagOpts) :
    ∀ (m : Nat), ∀ (x lvl : Nat) (s : List Nat) (fuel : Nat) (zz : GoVal) (e : CErr),
      lvl + m ≤ startDetectingCyclesAfter →
      encodeV fuel h ⟨lvl + m, s⟩ (vPtr (vBool false) (some (nf^[m] x))) tg = .error e →
      encodeV (fuel + m) h ⟨lvl, s⟩ (vPtr zz (some x)) tg = .error e := by
  intro m
  induction m with
  | zero =>
    intro x lvl s fuel zz e hle hrec
    rw [enc_ptr_z_irrel (fuel + 0) h ⟨lvl, s⟩ x zz (vBool false) tg]
    simpa using hrec
  | succ m ihm =>
    intro x lvl s fuel zz e hle hrec
    apply enc_ptr_low (fuel + m) h lvl s x (vPtr (z x) (some (nf x))) zz tg e
      (by simp [startDetectingCyclesAfter] at hle ⊢; omega) (hch x)
    refine ihm (nf x) (lvl + 1) s fuel (z x) e (by omega) ?_
    have h1 : lvl + 1 + m = lvl + (m + 1) := by omega
    have h2 : nf^[m] (nf x) = nf^[m + 1] x := (Function.iterate_succ_apply nf m x).symm
    rw [h1, h2]
    exact hrec

/-- C6: Marshal of a pointer into a heap of pointer cells whose forward
chain revisits the same reference identity fails with the
`UnsupportedValueError` cycle error (for any cycle shape `i < j` with
`nf^[i] a = nf^[j] a` and ample fuel); and a struct whose two sibling
fields hold the same non-cyclic pointer (one whose encoding succeeds,
leaving the cycle guard as it found it) does not error and both
siblings produce identical bytes. -/
theorem C6_cycle_and_shared_target :
    (∀ (h : GoHeap) (nf : Nat → Nat) (z : Nat → GoVal) (zz : GoVal) (a i j fuel : Nat),
      (∀ n, h.mem n = some (vPtr (z n) (some (nf n)))) → i < j → nf^[i] a = nf^[j] a →
      1002 + j ≤ fuel →
      marshalF fuel h (some (vPtr zz (some a))) = .error (.unsupportedValue "cycle")) ∧
    (∀ (h : GoHeap) (pt : PTrack) (a : Nat) (z : GoVal) (t tg : TagOpts) (bs : List Nat)
       (n1 n2 : String) (f0 : Nat),
      t.lengthref = "" → n1 ≠ "" → n2 ≠ "" →
      (∀ m, f0 ≤ m → encodeV m h pt (vPtr z (some a)) t = .ok (bs, pt)) →
      ∀ k, f0 ≤ k →
        encodeV (k + 4) h pt (vStruct [(n1, t, vPtr z (some a)), (n2, t, vPtr z (some a))]) tg
          = .ok (bs ++ bs, pt)) := by
  constructor
  · intro h nf z zz a i j fuel hch hij hrev hfuel
    have key : encodeV fuel h ⟨0, []⟩ (vPtr zz (some a)) {}
        = .error (.unsupportedValue "cycle") := by
      obtain ⟨fu, rfl⟩ : ∃ fu, fuel = fu + 1000 := ⟨fuel - 1000, by omega⟩
      apply chain_climb nf z h hch {} 1000 a 0 [] fu zz _
        (by simp [startDetectingCyclesAfter])
      apply chain_detect nf z h hch {} j (nf^[1000] a) [] (0 + 1000) fu (vBool false)
        (by simp [startDetectingCyclesAfter]) (by omega)
      by_cases hi : i ≤ 1000
      · have hp : nf^[j - i] (nf^[1000] a) = nf^[1000] a := by
          rw [← Function.iterate_add_apply]
          have h3 : j - i + 1000 = 1000 - i + j := by omega
          rw [h3, Function.iterate_add_apply, ← hrev, ← Function.iterate_add_apply]
          congr 1
          omega
        exact ⟨j - i, by omega, Or.inr ⟨0, by omega, by
          rw [Function.iterate_zero_apply, hp]⟩⟩
      · refine ⟨j - 1000, by omega, Or.inr ⟨i - 1000, by omega, ?_⟩⟩
        rw [← Function.iterate_add_apply, ← Function.iterate_add_apply]
        have e1 : i - 1000 + 1000 = i := by omega
        have e2 : j - 1000 + 1000 = j := by omega
        rw [e1, e2]
        exact hrev
    have hm : marshalF fuel h (some (vPtr zz (some a)))
        = match encodeV fuel h pt0 (vPtr zz (some a)) {} with
          | .error e => .error e
          | .ok (bs, _) => .ok bs := rfl
    rw [hm, show (pt0 : PTrack) = ⟨0, []⟩ from rfl, key]
  · intro h pt a z t tg bs n1 n2 f0 hl hn1 hn2 hstab k hk
    exact encodeV_struct2 k h pt pt pt (n1, t, vPtr z (some a)) (n2, t, vPtr z (some a)) tg
      bs bs hl hl hn1 hn2 (hstab (k + 2) (by omega)) (hstab (k + 1) (by omega))

/-- Witness for C6: the one-node self-referential pointer loop fails with
the cycle error at fuel 1003, and two sibling fields sharing one
pointer target encode to the same byte twice. -/
theorem C6_cycle_and_shared_target_witness :
    marshalF 1003 (⟨fun _ => some (vPtr (vBool false) (some 0)), 1⟩ : GoHeap)
        (some (vPtr (vBool false) (some 0))) = .error (.unsupportedValue "cycle") ∧
    encodeV 6 (hOfList [vUint8 9]) pt0
        (vStruct [("P1", {}, vPtr (vUint8 0) (some 0)), ("P2", {}, vPtr (vUint8 0) (some 0))]) {}
      = .ok ([9, 9], pt0) := by
  constructor
  · exact C6_cycle_and_shared_target.1 _ (fun _ => 0) (fun _ => vBool false) (vBool false)
      0 0 1 1003 (fun _ => rfl) (by omega) rfl (by omega)
  · have hstab : ∀ m, 2 ≤ m →
        encodeV m (hOfList [vUint8 9]) pt0 (vPtr (vUint8 0) (some 0)) {} = .ok ([9], pt0) := by
      intro m hm
      obtain ⟨k, rfl⟩ : ∃ k, m = k + 2 := ⟨m - 2, by omega⟩
      rfl
    exact C6_cycle_and_shared_target.2 _ pt0 0 (vUint8 0) {} {} [9] "P1" "P2" 2 rfl
      (by decide) (by decide) hstab 2 (by omega)
